import Mathlib

/-!
Verification of the ADW orchestrator (src/adws) against its specification.

Strings from the Python source are modelled as `List Char`; a Python string
literal `"s"` is written `"s".data`.  Python `str.strip()`, `str.lower()`,
`str.splitlines()`, `in` (substring), and `str.startswith` are modelled by
`pyStrip`, `pyLower`, `splitLinesPy`, `containsSub`, `List.isPrefixOf`.
The coding agent, the GitHub CLI and the filesystem are external
collaborators: their answers enter the model as explicit inputs (oracles),
while everything the orchestrator itself computes is translated from the
source.
-/

namespace ADW

/-! ## Python string primitives -/

/-- The whitespace characters stripped by Python's default `str.strip()`
(restricted to ASCII). -/
def isPySpace (c : Char) : Bool :=
  c = ' ' ∨ c = '\t' ∨ c = '\n' ∨ c = '\x0d' ∨ c = '\x0b' ∨ c = '\x0c'

/-- Python `s.strip()`: drop leading and trailing whitespace. -/
def pyStrip (l : List Char) : List Char :=
  ((l.dropWhile isPySpace).reverse.dropWhile isPySpace).reverse

/-- Python `s.lower()` (ASCII letters; the keywords and sentinels compared in
the source are all ASCII). -/
def pyLower (l : List Char) : List Char :=
  l.map Char.toLower

/-- Python `s.splitlines()` for `\n`-separated text: `"a\nb" ↦ ["a","b"]`,
`"a\n" ↦ ["a"]`, `"" ↦ []`. -/
def splitLinesPy : List Char → List (List Char)
  | [] => []
  | c :: cs =>
    if c = '\n' then [] :: splitLinesPy cs
    else
      match splitLinesPy cs with
      | [] => [[c]]
      | line :: rest => (c :: line) :: rest

/-- Python `needle in hay` (substring containment). -/
def containsSub (hay needle : List Char) : Bool :=
  match hay with
  | [] => needle.isEmpty
  | _ :: t => needle.isPrefixOf hay || containsSub t needle

/-- Index of the first occurrence of `pat` in `body`, if any.  Used to speak
about "order of appearance in the body". -/
def firstIdxOf (body pat : List Char) : Option Nat :=
  (List.range (body.length + 1)).find? (fun i => pat.isPrefixOf (body.drop i))

/-- Decimal rendering of a natural number, as the characters Python's
f-strings interpolate for an `int`. -/
def natChars (n : Nat) : List Char := (Nat.repr n).data

/-! ## Workflow state (src/adws/adw_modules/data_types.py, state.py) -/

/-- `ADWPhase` (data_types.py). -/
inductive ADWPhase
  | classify | branch | plan | build | test | review | document | pr
deriving DecidableEq, Repr

/-- `TestResult` (data_types.py). -/
structure TestResult where
  suite : List Char
  passed : Bool
  output : List Char
  error : Option (List Char) := none
deriving DecidableEq, Repr

/-- `E2ETestResult` (data_types.py). -/
structure E2ETestResult where
  all_passed : Bool
  results : List TestResult
  attempt : Nat := 1
deriving DecidableEq, Repr

/-- `ReviewIssue` (data_types.py); `severity` is kept as a raw string, the
source restricts it to blocker/warning/suggestion via pydantic. -/
structure ReviewIssue where
  file : List Char
  line : Option Int := none
  severity : List Char
  description : List Char
deriving DecidableEq, Repr

/-- `ReviewResult` (data_types.py). -/
structure ReviewResult where
  approved : Bool
  issues : List ReviewIssue := []
  screenshots : List (List Char) := []
  summary : List Char
  attempt : Nat := 1
deriving DecidableEq, Repr

/-- `ADWStateData` (data_types.py), restricted to the fields the verified
claims touch; the two ISO timestamps are not modelled (no claim mentions
them beyond what `save_state` refreshes). -/
structure ADWState where
  adw_id : List Char
  issue_number : List Char
  issue_class : Option (List Char) := none
  branch_name : Option (List Char) := none
  plan_file : Option (List Char) := none
  current_phase : ADWPhase := .classify
  completed_phases : List ADWPhase := []
  test_results : List E2ETestResult := []
  review_results : List ReviewResult := []
  pr_url : Option (List Char) := none
  error : Option (List Char) := none
deriving DecidableEq, Repr

/-- `create_state` (state.py): a fresh record with default phase fields. -/
def create_state (adw_id issue_number : List Char) : ADWState :=
  { adw_id := adw_id, issue_number := issue_number }

/-- `advance_phase` (state.py): append the current phase to
`completed_phases` unless already present, then replace `current_phase`. -/
def advance_phase (st : ADWState) (next : ADWPhase) : ADWState :=
  let completed :=
    if st.current_phase ∈ st.completed_phases then st.completed_phases
    else st.completed_phases ++ [st.current_phase]
  { st with completed_phases := completed, current_phase := next }

/-- `mark_error` (state.py). -/
def mark_error (st : ADWState) (e : List Char) : ADWState :=
  { st with error := some e }

/-- The state-store operations of state.py other than `create` (which is the
initial record).  `save` only refreshes the unmodelled `updated_at`. -/
inductive StateOp
  | save
  | advance (p : ADWPhase)
  | markError (e : List Char)
deriving DecidableEq, Repr

/-- Apply one state-store operation. -/
def applyOp (st : ADWState) : StateOp → ADWState
  | .save => st
  | .advance p => advance_phase st p
  | .markError e => mark_error st e

/-- Run a sequence of state-store operations from an initial record. -/
def runOps (st : ADWState) (ops : List StateOp) : ADWState :=
  ops.foldl applyOp st

/-- The sequence of phase-advancing state-store operations performed by
`adw_plan_build.py main` on its state record (field assignments such as
`state.issue_class = …` do not touch the phase bookkeeping): advance to
BRANCH after classify, to PLAN after branching, a plain save when the plan
file is recorded, advance to BUILD after the plan commit, then the two
consecutive advances to PR around PR creation. -/
def planBuildOps : List StateOp :=
  [.advance .branch, .advance .plan, .save, .advance .build,
   .advance .pr, .advance .pr]

/-- `format_issue_message` (workflow_ops.py). -/
def format_issue_message (adw_id agent_name message : List Char)
    (session_id : Option (List Char) := none) : List Char :=
  match session_id with
  | some sid => adw_id ++ "_".data ++ agent_name ++ "_".data ++ sid
      ++ ": ".data ++ message
  | none => adw_id ++ "_".data ++ agent_name ++ ": ".data ++ message

/-! ## Test phase (src/adws/adw_test.py)

`run_tests` and `resolve_failed_tests` call the external agent; their
per-attempt answers enter the model as the oracle `f : Nat → E2ETestResult`
(the resolve outcome only drives a `git commit`, which touches neither the
state record nor the issue comments, so it does not appear).  Everything
else of `adw_test.main` after `load_state` is translated below. -/

def MAX_TEST_RETRY_ATTEMPTS : Nat := 4

def AGENT_TESTER : List Char := "sdlc_tester".data

def AGENT_TEST_RESOLVER : List Char := "sdlc_test_resolver".data

/-- Outcome of a phase executable: final state record, the issue comments
posted (in order, as `(issue_number, body)`), and the process exit code. -/
structure PhaseResult where
  state : ADWState
  comments : List (List Char × List Char)
  exitCode : Nat
deriving DecidableEq, Repr

/-- The code of `adw_test.main` that runs after the retry loop is exhausted:
`mark_error`, the ❌ comment, `sys.exit(1)`. -/
def testExhausted (adw issue : List Char) (st : ADWState)
    (acc : List (List Char × List Char)) : PhaseResult :=
  let st := mark_error st
    ("Tests failed after ".data ++ natChars MAX_TEST_RETRY_ATTEMPTS
      ++ " attempts".data)
  { state := st
    comments := acc ++ [(issue, format_issue_message adw AGENT_TESTER
      ("❌ Tests still failing after ".data
        ++ natChars MAX_TEST_RETRY_ATTEMPTS ++ " attempts".data))]
    exitCode := 1 }

/-- The `for attempt in range(1, MAX_TEST_RETRY_ATTEMPTS + 1)` loop of
`adw_test.main`.  `remaining` counts the loop iterations left (the loop
body breaks at `attempt >= MAX`, so `remaining = 0` is unreachable from
`remaining = MAX` but is mapped to the post-loop code it would fall into). -/
def testLoopGo (f : Nat → E2ETestResult) (adw issue : List Char) :
    Nat → Nat → ADWState → List (List Char × List Char) → PhaseResult
  | _, 0, st, acc => testExhausted adw issue st acc
  | attempt, r + 1, st, acc =>
    let acc := acc ++ [(issue, format_issue_message adw AGENT_TESTER
      ("🧪 Running tests (attempt ".data ++ natChars attempt ++ ")".data))]
    let tr := f attempt
    let st := { st with test_results := st.test_results ++ [tr] }
    if tr.all_passed then
      let acc := acc ++ [(issue, format_issue_message adw AGENT_TESTER
        "✅ All tests passed".data)]
      { state := advance_phase st .review, comments := acc, exitCode := 0 }
    else if MAX_TEST_RETRY_ATTEMPTS ≤ attempt then
      testExhausted adw issue st acc
    else
      let acc := acc ++ [(issue, format_issue_message adw AGENT_TEST_RESOLVER
        "🔧 Attempting to fix test failures".data)]
      testLoopGo f adw issue (attempt + 1) r st acc

/-- `adw_test.main` from the `load_state` call on.  `fs` is the loaded
state (`none` when the state file is missing, in which case the process
exits 1 before doing anything, modelled as `none`). -/
def adwTestMain (f : Nat → E2ETestResult) (fs : Option ADWState) :
    Option PhaseResult :=
  match fs with
  | none => none
  | some st =>
    let acc := [(st.issue_number,
      format_issue_message st.adw_id "ops".data "✅ Starting test phase".data)]
    some (testLoopGo f st.adw_id st.issue_number 1 MAX_TEST_RETRY_ATTEMPTS
      st acc)

/-! ## Review phase (src/adws/adw_review.py)

External inputs: the per-attempt parsed review `g : Nat → ReviewResult`
(the value `run_review` returns), the e2e screenshot paths `e2e`, the order
in which Python's `list(set(…))` happens to enumerate the merged screenshot
set (`merge`), and the markdown parts produced by the screenshot uploads in
`post_review_comment_with_screenshots` (`upload`; an empty list models all
uploads failing). -/

def MAX_REVIEW_RETRY_ATTEMPTS : Nat := 3

def AGENT_REVIEWER : List Char := "sdlc_reviewer".data

def AGENT_IMPLEMENTOR : List Char := "sdlc_implementor".data

/-- `post_review_comment_with_screenshots` (github.py): upload the
screenshots, append the successfully uploaded ones as a `### Screenshots`
section, and post the comment. -/
def postReviewCommentWithScreenshots
    (upload : List (List Char) → List (List Char))
    (issue comment : List Char) (shots : List (List Char)) :
    List Char × List Char :=
  let parts := upload shots
  if parts = [] then (issue, comment)
  else (issue,
    comment ++ "\n\n### Screenshots\n".data
      ++ (List.intercalate "\n".data parts))

/-- The `if e2e_screenshots:` merge in `adw_review.main`:
`review_result.screenshots = list(set(review_result.screenshots + e2e))`. -/
def mergeE2EScreenshots (merge : List (List Char) → List (List Char))
    (e2e : List (List Char)) (rr : ReviewResult) : ReviewResult :=
  if e2e = [] then rr
  else { rr with screenshots := merge (rr.screenshots ++ e2e) }

/-- The code of `adw_review.main` after the retry loop is exhausted:
`mark_error`, the failure comment (with screenshots when the last stored
attempt has any), `sys.exit(1)`. -/
def reviewExhausted (upload : List (List Char) → List (List Char))
    (adw issue : List Char) (st : ADWState)
    (acc : List (List Char × List Char)) : PhaseResult :=
  let st := mark_error st
    ("Review blockers after ".data ++ natChars MAX_REVIEW_RETRY_ATTEMPTS
      ++ " attempts".data)
  let failureComment := format_issue_message adw AGENT_REVIEWER
    ("❌ Review blockers not resolved after ".data
      ++ natChars MAX_REVIEW_RETRY_ATTEMPTS ++ " attempts".data)
  let posted :=
    match st.review_results.getLast? with
    | some last =>
      if last.screenshots ≠ [] then
        postReviewCommentWithScreenshots upload issue failureComment
          last.screenshots
      else (issue, failureComment)
    | none => (issue, failureComment)
  { state := st, comments := acc ++ [posted], exitCode := 1 }

/-- The `for attempt in range(1, MAX_REVIEW_RETRY_ATTEMPTS + 1)` loop of
`adw_review.main`. -/
def reviewLoopGo (g : Nat → ReviewResult)
    (e2e : List (List Char)) (merge upload : List (List Char) → List (List Char))
    (adw issue : List Char) :
    Nat → Nat → ADWState → List (List Char × List Char) → PhaseResult
  | _, 0, st, acc => reviewExhausted upload adw issue st acc
  | attempt, r + 1, st, acc =>
    let acc := acc ++ [(issue, format_issue_message adw AGENT_REVIEWER
      ("🔍 Running review (attempt ".data ++ natChars attempt ++ ")".data))]
    let rr := mergeE2EScreenshots merge e2e (g attempt)
    let st := { st with review_results := st.review_results ++ [rr] }
    if rr.approved then
      let comment := format_issue_message adw AGENT_REVIEWER
        "✅ Review approved".data
      let posted :=
        if rr.screenshots ≠ [] then
          postReviewCommentWithScreenshots upload issue comment rr.screenshots
        else (issue, comment)
      { state := advance_phase st .document, comments := acc ++ [posted]
        exitCode := 0 }
    else if MAX_REVIEW_RETRY_ATTEMPTS ≤ attempt then
      reviewExhausted upload adw issue st acc
    else
      let acc := acc ++ [(issue, format_issue_message adw AGENT_IMPLEMENTOR
        "🔧 Fixing review blockers".data)]
      reviewLoopGo g e2e merge upload adw issue (attempt + 1) r st acc

/-- `adw_review.main` from the `load_state` call on.  Exits 1 before any
effect (`none`) when the state file is missing or `state.plan_file` is
falsy (unset or the empty string). -/
def adwReviewMain (g : Nat → ReviewResult) (e2e : List (List Char))
    (merge upload : List (List Char) → List (List Char))
    (fs : Option ADWState) : Option PhaseResult :=
  match fs with
  | none => none
  | some st =>
    match st.plan_file with
    | none => none
    | some p =>
      if p = [] then none
      else
        let acc := [(st.issue_number, format_issue_message st.adw_id
          "ops".data "✅ Starting review phase".data)]
        some (reviewLoopGo g e2e merge upload st.adw_id st.issue_number 1
          MAX_REVIEW_RETRY_ATTEMPTS st acc)

/-! ## Agent runner (src/adws/adw_modules/agent.py) -/

/-- The projections of a parsed JSONL message that `prompt_claude_code`
reads (`type`, `session_id`, `is_error`, `result`); a field is `none` when
the key is absent from the JSON object. -/
structure JsonMsg where
  mtype : List Char
  session_id : Option (List Char) := none
  is_error : Option Bool := none
  result : Option (List Char) := none
deriving DecidableEq, Repr

/-- One physical line of the agent's output file: whitespace-only (skipped
by `if line.strip()`), not a JSON object (`json.loads` or the later
`.get` raises), or a parsed JSON object. -/
inductive RawLine
  | blank
  | bad
  | msg (m : JsonMsg)
deriving DecidableEq, Repr

/-- `AgentPromptResponse` (data_types.py). -/
structure AgentPromptResponse where
  output : List Char
  success : Bool
  session_id : Option (List Char) := none
deriving DecidableEq, Repr

/-- `parse_jsonl_output` (agent.py): parse every non-blank line; any raising
line makes the whole call return `([], None)` (the `except` branch);
otherwise return all messages and the last one whose `type` is "result". -/
def parseJsonlOutput (lines : List RawLine) :
    List JsonMsg × Option JsonMsg :=
  let nonblank := lines.filter (fun l => match l with
    | .blank => false | _ => true)
  if nonblank.any (fun l => match l with | .bad => true | _ => false) then
    ([], none)
  else
    let msgs := nonblank.filterMap (fun l => match l with
      | .msg m => some m | _ => none)
    (msgs, msgs.reverse.find? (fun m => m.mtype == "result".data))

/-- The last line of the captured output whose parsed `type` is "result"
(blank and unparseable lines contribute no parsed message). -/
def lastResultMsg (lines : List RawLine) : Option JsonMsg :=
  (lines.filterMap (fun l => match l with
    | .msg m => if m.mtype == "result".data then some m else none
    | _ => none)).getLast?

/-- What the spawned agent subprocess did: its exit code, the output file's
lines (as written to `output_file`) and raw content, and its stderr. -/
structure SpawnOutcome where
  exitCode : Int
  lines : List RawLine
  rawContent : List Char
  stderr : List Char

/-- The response `prompt_claude_code` (agent.py) distills from a finished
subprocess: on exit 0, the last `result` line if one was parsed (success is
the negated `is_error`, defaulting to `False`; text is the `result` field,
defaulting to `""`), else the raw file content with success `True`; on a
non-zero exit, failure with a stderr-derived text. -/
def promptClaudeCodeResponse (o : SpawnOutcome) : AgentPromptResponse :=
  if o.exitCode = 0 then
    match (parseJsonlOutput o.lines).2 with
    | some m =>
      { output := m.result.getD []
        success := !(m.is_error.getD false)
        session_id := m.session_id }
    | none => { output := o.rawContent, success := true, session_id := none }
  else
    { output := "Claude Code error: ".data ++ o.stderr
      success := false, session_id := none }

/-- `get_claude_env` (agent.py): the environment dict for the agent
subprocess, built from a fixed key set over the host environment `host`
(`os.getenv`), with defaults for the agent path and working-dir flag, the
GitHub token duplicated into `GH_TOKEN` when set and non-empty, and `None`
values dropped. -/
def getClaudeEnv (host : List Char → Option (List Char)) :
    List (List Char × List Char) :=
  let required : List (List Char × Option (List Char)) :=
    [("ANTHROPIC_API_KEY".data, host "ANTHROPIC_API_KEY".data),
     ("CLAUDE_CODE_PATH".data,
       some ((host "CLAUDE_CODE_PATH".data).getD "claude".data)),
     ("CLAUDE_BASH_MAINTAIN_PROJECT_WORKING_DIR".data,
       some ((host "CLAUDE_BASH_MAINTAIN_PROJECT_WORKING_DIR".data).getD
         "true".data)),
     ("HOME".data, host "HOME".data),
     ("USER".data, host "USER".data),
     ("PATH".data, host "PATH".data),
     ("SHELL".data, host "SHELL".data),
     ("TERM".data, host "TERM".data)]
  let withPat :=
    match host "GITHUB_PAT".data with
    | some pat =>
      if pat = [] then required
      else required ++ [("GITHUB_PAT".data, some pat),
        ("GH_TOKEN".data, some pat)]
    | none => required
  withPat.filterMap (fun kv => kv.2.map (fun v => (kv.1, v)))

/-- The key set the specification allows in the agent subprocess
environment. -/
def allowedEnvKeys : List (List Char) :=
  ["ANTHROPIC_API_KEY".data, "CLAUDE_CODE_PATH".data,
   "CLAUDE_BASH_MAINTAIN_PROJECT_WORKING_DIR".data, "HOME".data,
   "USER".data, "PATH".data, "SHELL".data, "TERM".data,
   "GITHUB_PAT".data, "GH_TOKEN".data]

/-- Python `\w` on ASCII: letters, digits, underscore. -/
def isWordChar (c : Char) : Bool := c.isAlphanum || c = '_'

/-- The `re.match(r'^(/\w+)', prompt)` capture of `save_prompt`
(agent.py): the leading slash command word, if the prompt starts with
one. -/
def promptSlashWord (prompt : List Char) : Option (List Char) :=
  match prompt with
  | '/' :: rest =>
    let w := rest.takeWhile isWordChar
    if w = [] then none else some w
  | _ => none

/-- `save_prompt` (agent.py): the `(path, content)` pair written when the
prompt starts with a slash command (`none` when it does not and nothing is
written).  The path is
`<project_root>/agents/<adw_id>/<agent_name>/prompts/<word>.txt`. -/
def savePromptFile (projectRoot adw_id agent_name prompt : List Char) :
    Option (List Char × List Char) :=
  match promptSlashWord prompt with
  | none => none
  | some w =>
    some (projectRoot ++ "/agents/".data ++ adw_id ++ "/".data ++ agent_name
      ++ "/prompts/".data ++ w ++ ".txt".data, prompt)

/-- The prompt string `prompt_claude_code` (agent.py) actually hands to the
agent subprocess (`cmd[2]`): the request prompt, plus — when the request
carries image paths of which some exist on disk (`isFile`) — the appended
reference-images directive listing their absolute paths (`abspath` models
`os.path.abspath`). -/
def effectivePrompt (prompt : List Char) (imagePaths : List (List Char))
    (isFile : List Char → Bool) (abspath : List Char → List Char) :
    List Char :=
  if imagePaths = [] then prompt
  else
    let refs := imagePaths.filter isFile
    if refs = [] then prompt
    else prompt ++ "\n\nReference images (use Read tool to view):\n".data
      ++ List.intercalate "\n".data (refs.map (fun p => "- ".data ++ abspath p))

/-! ## Parsing of /test output (src/adws/adw_test.py run_tests) -/

/-- The projections `run_tests` takes from one element of a parsed JSON
array (`item.get` with defaults). -/
structure PyTestItem where
  suite : Option (List Char) := none
  passed : Option Bool := none
  output : Option (List Char) := none
  error : Option (List Char) := none
deriving DecidableEq, Repr

/-- The shape of `parse_json`'s answer as `run_tests` inspects it: a JSON
array, or some other JSON value (whose truthiness is irrelevant there —
any non-list falls through `isinstance(parsed, list)`). -/
inductive PyTestParse
  | arr (items : List PyTestItem)
  | nonList (truthy : Bool)
deriving Repr

/-- The `TestResult(...)` construction inside `run_tests`' JSON branch. -/
def testItemToResult (item : PyTestItem) : TestResult :=
  { suite := item.suite.getD "unknown".data
    passed := item.passed.getD false
    output := item.output.getD []
    error := item.error }

/-- The fallback classification of `run_tests` when the output is not
usable as a JSON array (agent.py lines 72-74):
`"all tests passed" in raw or ("pass" in raw and "fail" not in raw)`
over the lowercased output. -/
def testFallbackPassed (output : List Char) : Bool :=
  let raw := pyLower output
  containsSub raw "all tests passed".data ||
    (containsSub raw "pass".data && !containsSub raw "fail".data)

/-- `run_tests` (adw_test.py) after the agent call: `success` and `output`
are the agent response's fields, `parsed` is `parse_json(output)`
(`none` when parsing failed).  Note the branch guard is
`if parsed and isinstance(parsed, list)`, so an *empty* parsed array is
falsy and also falls to the fallback. -/
def runTestsModel (success : Bool) (output : List Char)
    (parsed : Option PyTestParse) (attempt : Nat) : E2ETestResult :=
  if !success then
    { all_passed := false
      results := [{ suite := "all".data, passed := false, output := [], error := some output }]
      attempt := attempt }
  else
    let fallback : E2ETestResult :=
      { all_passed := testFallbackPassed output
        results := [{ suite := "all".data, passed := testFallbackPassed output, output := output }]
        attempt := attempt }
    match parsed with
    | some (.arr items) =>
      if items = [] then fallback
      else
        let trs := items.map testItemToResult
        { all_passed := trs.all (·.passed), results := trs, attempt := attempt }
    | _ => fallback

/-! ## Parsing of /review output (src/adws/adw_review.py run_review) -/

/-- The projections `run_review` takes from one element of the parsed
`issues` array. -/
structure PyReviewItem where
  file : Option (List Char) := none
  line : Option Int := none
  severity : Option (List Char) := none
  description : Option (List Char) := none
deriving DecidableEq, Repr

/-- The projections `run_review` takes from a parsed JSON object;
`otherKeys` records whether the object has keys beyond these four (it
only feeds Python's dict truthiness test). -/
structure PyReviewDict where
  approved : Option Bool := none
  issues : Option (List PyReviewItem) := none
  screenshots : Option (List (List Char)) := none
  summary : Option (List Char) := none
  otherKeys : Bool := false
deriving Repr

/-- Python truthiness of the parsed dict: it has at least one key. -/
def reviewDictTruthy (d : PyReviewDict) : Bool :=
  d.approved.isSome || d.issues.isSome || d.screenshots.isSome ||
    d.summary.isSome || d.otherKeys

/-- The shape of `parse_json`'s answer as `run_review` inspects it. -/
inductive PyReviewParse
  | dict (d : PyReviewDict)
  | nonDict (truthy : Bool)
deriving Repr

/-- The `ReviewIssue(...)` construction inside `run_review`'s JSON branch:
missing `file` defaults to "unknown", missing `severity` to "suggestion",
missing `description` to the empty string. -/
def reviewItemToIssue (item : PyReviewItem) : ReviewIssue :=
  { file := item.file.getD "unknown".data
    line := item.line
    severity := item.severity.getD "suggestion".data
    description := item.description.getD [] }

/-- `run_review`'s fallback when the output is not usable as a JSON dict:
blockers are inferred from the lowercased text by
`"blocker" in raw and ("approved" not in raw or "not approved" in raw)`. -/
def reviewFallback (output : List Char) (attempt : Nat) : ReviewResult :=
  let raw := pyLower output
  let has_blockers := containsSub raw "blocker".data &&
    (!containsSub raw "approved".data || containsSub raw "not approved".data)
  { approved := !has_blockers, issues := [], screenshots := []
    summary := output.take 500, attempt := attempt }

/-- `run_review` (adw_review.py) after the agent call.  The branch guard is
`if parsed and isinstance(parsed, dict)`, so an *empty* parsed dict is
falsy and falls to the textual fallback. -/
def runReviewModel (success : Bool) (output : List Char)
    (parsed : Option PyReviewParse) (attempt : Nat) : ReviewResult :=
  if !success then
    { approved := false
      issues := [{ file := "unknown".data, severity := "blocker".data, description := output }]
      summary := "Review failed: ".data ++ output
      attempt := attempt }
  else
    match parsed with
    | some (.dict d) =>
      if reviewDictTruthy d then
        let issues := (d.issues.getD []).map reviewItemToIssue
        { approved := d.approved.getD issues.isEmpty
          issues := issues
          screenshots := d.screenshots.getD []
          summary := d.summary.getD (output.take 200)
          attempt := attempt }
      else reviewFallback output attempt
    | _ => reviewFallback output attempt

/-! ## Image URL extraction (data_types.py GitHubIssue.extract_image_urls)

The two `re.findall` scans are translated pattern-by-pattern:
`<img[^>]+src=["\x27]([^"\x27]+)["\x27]` and `!\[[^\]]*\]\(([^)]+)\)`
(both are concrete enough that their backtracking behaviour is a simple
function; the one greedy choice that matters — `[^>]+` picking the *last*
viable `src=` inside a tag — is reproduced by trying the longest gap
first). -/

/-- A character matched by the regex class `["\x27]` / excluded by
`[^"\x27]`. -/
def isQuoteChar (c : Char) : Bool := c = '"' || c = '\''

/-- Match `src=["\x27]([^"\x27]+)["\x27]` at the head of `l`; returns the
capture and the remainder after the whole match. -/
def trySrcAt (l : List Char) : Option (List Char × List Char) :=
  match l with
  | 's' :: 'r' :: 'c' :: '=' :: q :: rest =>
    if isQuoteChar q then
      let url := rest.takeWhile (fun c => ¬ isQuoteChar c)
      match rest.drop url.length with
      | _ :: rest2 => if url = [] then none else some (url, rest2)
      | [] => none
    else none
  | _ => none

/-- Match `<img[^>]+src=["\x27]([^"\x27]+)["\x27]` at the head of `l`:
after the literal `<img`, the greedy `[^>]+` tries the longest gap of
non-`>` characters first, backtracking down to a gap of one character. -/
def tryImgAt (l : List Char) : Option (List Char × List Char) :=
  match l with
  | '<' :: 'i' :: 'm' :: 'g' :: rest =>
    let kmax := (rest.takeWhile (· ≠ '>')).length
    (List.range kmax).reverse.findSome? (fun j => trySrcAt (rest.drop (j + 1)))
  | _ => none

/-- Match `!\[[^\]]*\]\(([^)]+)\)` at the head of `l`. -/
def tryMdAt (l : List Char) : Option (List Char × List Char) :=
  match l with
  | '!' :: '[' :: rest =>
    let alt := rest.takeWhile (· ≠ ']')
    match rest.drop alt.length with
    | ']' :: '(' :: rest2 =>
      let url := rest2.takeWhile (· ≠ ')')
      match rest2.drop url.length with
      | ')' :: rest3 => if url = [] then none else some (url, rest3)
      | _ => none
    | _ => none
  | _ => none

/-- `re.findall` driving one of the matchers over the body: try a match at
each position, emit its capture and resume after the matched text
(non-overlapping, left to right).  `fuel` bounds the recursion; both
matchers consume at least one character, so `body.length` fuel is exact. -/
def findAllAux (tryAt : List Char → Option (List Char × List Char)) :
    Nat → List Char → List (List Char)
  | 0, _ => []
  | _ + 1, [] => []
  | fuel + 1, c :: cs =>
    match tryAt (c :: cs) with
    | some (url, rest) => url :: findAllAux tryAt fuel rest
    | none => findAllAux tryAt fuel cs

/-- All captures of the HTML `<img src>` pattern in `body`. -/
def findImgUrls (body : List Char) : List (List Char) :=
  findAllAux tryImgAt body.length body

/-- All captures of the Markdown image pattern in `body`. -/
def findMdUrls (body : List Char) : List (List Char) :=
  findAllAux tryMdAt body.length body

/-- The `seen`-set deduplication loop of `extract_image_urls`: keep the
first occurrence of each URL. -/
def dedupFirstAux (seen : List (List Char)) :
    List (List Char) → List (List Char)
  | [] => []
  | u :: us =>
    if u ∈ seen then dedupFirstAux seen us
    else u :: dedupFirstAux (u :: seen) us

/-- `GitHubIssue.extract_image_urls` (data_types.py): all HTML matches,
then all Markdown matches, deduplicated keeping first occurrences. -/
def extractImageUrls (body : List Char) : List (List Char) :=
  dedupFirstAux [] (findImgUrls body ++ findMdUrls body)

/-! ## Keyword router (src/adws/trigger_cron.py, trigger_webhook.py) -/

/-- `WORKFLOW_SCRIPTS`, identical in both trigger scripts, in dict
insertion order. -/
def WORKFLOW_SCRIPTS : List (List Char × List Char) :=
  [("adw".data, "adw_plan_build.py".data),
   ("adw_plan_build".data, "adw_plan_build.py".data),
   ("adw_sdlc".data, "adw_sdlc.py".data),
   ("adw_patch".data, "adw_patch.py".data),
   ("adw_plan_build_test".data, "adw_plan_build_test.py".data),
   ("adw_plan_build_review".data, "adw_plan_build_review.py".data),
   ("adw_plan_build_test_review".data, "adw_plan_build_test_review.py".data)]

/-- `sorted(WORKFLOW_SCRIPTS.keys(), key=len, reverse=True)`: Python's
stable sort by descending length (all seven lengths are distinct, so any
sort gives the same list). -/
def sortedKeywords : List (List Char) :=
  (WORKFLOW_SCRIPTS.map Prod.fst).insertionSort
    (fun a b => b.length ≤ a.length)

/-- `WORKFLOW_SCRIPTS[kw]` for a keyword of the table. -/
def lookupScript (kw : List Char) : List Char :=
  (WORKFLOW_SCRIPTS.lookup kw).getD []

/-- The keyword loop of trigger_cron.py's `resolve_workflow`, applied to
the already-normalized body: the script of the first keyword — tried in
descending length order — that the body equals or starts with; `none`
when no keyword matches. -/
def resolveCronNorm (keyword : List Char) : Option (List Char) :=
  (sortedKeywords.find? (fun kw => keyword == kw || kw.isPrefixOf keyword)).map
    lookupScript

/-- `resolve_workflow` of trigger_cron.py: normalize the body
(`comment_body.strip().lower()`), then run the keyword loop. -/
def resolveWorkflowCron (body : List Char) : Option (List Char) :=
  resolveCronNorm (pyLower (pyStrip body))

/-- `resolve_workflow` of trigger_webhook.py: after the same
normalization, first an exact-match pass over the keywords in descending
length order, then a scan of the body's lines, returning for the first
line that starts (after stripping) with a keyword the script of the
longest such keyword.  The empty list models the `("", "")` no-match
return (the trigger-reason component of the source's pair is not
modelled).  The source applies `.strip().lower()` both in the webhook
handler and again inside `resolve_workflow`; the composition of the two
is modelled (stripping and lowercasing are idempotent). -/
def resolveWebhookNorm (bl : List Char) : List Char :=
  match sortedKeywords.find? (fun kw => bl == kw) with
  | some kw => lookupScript kw
  | none =>
    match (splitLinesPy bl).findSome? (fun line =>
        (sortedKeywords.find? (fun kw => kw.isPrefixOf (pyStrip line))).map
          lookupScript) with
    | some s => s
    | none => []

/-- `resolve_workflow` of trigger_webhook.py applied to the raw comment
body. -/
def resolveWorkflowWebhook (body : List Char) : List Char :=
  resolveWebhookNorm (pyLower (pyStrip body))

/-- Claim C4 as stated: for distinct table keywords `k1` a proper prefix of
`k2` and any body whose normalization starts with `k2`, both routers
return the script mapped to `k2` and never the one mapped to `k1`. -/
def routerPrefixStableClaim : Prop :=
  ∀ k1 k2 body : List Char,
    k1 ∈ WORKFLOW_SCRIPTS.map Prod.fst →
    k2 ∈ WORKFLOW_SCRIPTS.map Prod.fst →
    k1 ≠ k2 → k1 <+: k2 →
    k2 <+: pyLower (pyStrip body) →
    resolveWorkflowCron body = some (lookupScript k2) ∧
    resolveWorkflowCron body ≠ some (lookupScript k1) ∧
    resolveWorkflowWebhook body = lookupScript k2 ∧
    resolveWorkflowWebhook body ≠ lookupScript k1

/-! ## Theorems -/

/-! ### State-store invariants (C9) -/

theorem advance_phase_nodup (st : ADWState) (p : ADWPhase)
    (h : st.completed_phases.Nodup) :
    (advance_phase st p).completed_phases.Nodup := by
  unfold advance_phase
  by_cases hm : st.current_phase ∈ st.completed_phases <;>
    simp [hm, List.nodup_append, h]

theorem runOps_nodup (ops : List StateOp) :
    ∀ st : ADWState, st.completed_phases.Nodup →
      (runOps st ops).completed_phases.Nodup := by
  induction ops with
  | nil => intro st h; exact h
  | cons op ops ih =>
    intro st h
    cases op with
    | save => exact ih st h
    | advance p => exact ih _ (advance_phase_nodup st p h)
    | markError e => exact ih _ h

theorem runOps_append_advance (st : ADWState) (ops : List StateOp)
    (p : ADWPhase) :
    runOps st (ops ++ [.advance p]) = advance_phase (runOps st ops) p := by
  simp [runOps, List.foldl_append, applyOp]

theorem current_mem_advance_completed (st : ADWState) (p : ADWPhase) :
    st.current_phase ∈ (advance_phase st p).completed_phases := by
  unfold advance_phase
  by_cases hm : st.current_phase ∈ st.completed_phases <;> simp [hm]

/-- C9: starting from a fresh workflow record, no sequence of state-store
operations ever puts the same phase twice into `completed_phases`; after
every `advance` the previous current phase is a member of
`completed_phases`; and the operation sequence of the combined plan-build
workflow — with its two consecutive advances to PR — leaves exactly one PR
entry. -/
theorem state_ops_invariants (adw issue : List Char) (ops : List StateOp)
    (p : ADWPhase) :
    (runOps (create_state adw issue) ops).completed_phases.Nodup ∧
    (runOps (create_state adw issue) ops).current_phase ∈
      (runOps (create_state adw issue) (ops ++ [.advance p])).completed_phases ∧
    ((runOps (create_state adw issue) planBuildOps).completed_phases.count
      ADWPhase.pr = 1) := by
  refine ⟨runOps_nodup ops _ (by simp [create_state]), ?_, ?_⟩
  · rw [runOps_append_advance]
    exact current_mem_advance_completed _ p
  · rfl

/-! ### Agent subprocess environment (C6) -/

theorem env_keys_sub (l : List (List Char × Option (List Char)))
    (k : List Char)
    (h : k ∈ (l.filterMap (fun kv => kv.2.map (fun v => (kv.1, v)))).map
      Prod.fst) :
    k ∈ l.map Prod.fst := by
  simp only [List.mem_map, List.mem_filterMap] at h ⊢
  obtain ⟨x, ⟨kv, hkv, hmap⟩, hfst⟩ := h
  rcases kv with ⟨a, b⟩
  cases b with
  | none => simp at hmap
  | some v =>
    simp at hmap
    exact ⟨(a, some v), hkv, by rw [← hmap] at hfst; simpa using hfst⟩

/-- C6: for every host environment, the environment dictionary handed to
the agent subprocess only contains keys from the fixed allowed set, and the
nested-invocation marker `CLAUDECODE` is never among them. -/
theorem agent_env_allowlist (host : List Char → Option (List Char)) :
    (∀ k, k ∈ (getClaudeEnv host).map Prod.fst → k ∈ allowedEnvKeys) ∧
    "CLAUDECODE".data ∉ (getClaudeEnv host).map Prod.fst := by
  have base : ∀ k, k ∈ (getClaudeEnv host).map Prod.fst →
      k ∈ allowedEnvKeys := by
    intro k hk
    unfold getClaudeEnv at hk
    have hk' := env_keys_sub _ _ hk
    rcases hpat : host "GITHUB_PAT".data with _ | pat
    · rw [hpat] at hk'
      simp [allowedEnvKeys] at hk' ⊢
      tauto
    · rw [hpat] at hk'
      by_cases hp : pat = [] <;>
        · simp [hp, allowedEnvKeys] at hk' ⊢
          tauto
  refine ⟨base, fun h => ?_⟩
  have := base _ h
  simp [allowedEnvKeys] at this

/-- C6 witness: a concrete host environment carrying both `CLAUDECODE` and
an unrelated junk variable; the forwarded key `PATH` is in the allowed set
and `CLAUDECODE` is dropped. -/
theorem agent_env_allowlist_witness :
    "PATH".data ∈ allowedEnvKeys ∧
    "CLAUDECODE".data ∉
      (getClaudeEnv (fun k =>
        if k = "PATH".data then some "/usr/bin".data
        else if k = "CLAUDECODE".data then some "1".data
        else if k = "SECRET_JUNK".data then some "x".data
        else none)).map Prod.fst := by
  have h := agent_env_allowlist (fun k =>
    if k = "PATH".data then some "/usr/bin".data
    else if k = "CLAUDECODE".data then some "1".data
    else if k = "SECRET_JUNK".data then some "x".data
    else none)
  exact ⟨h.1 "PATH".data (by decide), h.2⟩

/-! ### Substring containment (shared by C8, C10) -/

theorem isPrefixOf_iff {l₁ l₂ : List Char} :
    l₁.isPrefixOf l₂ = true ↔ ∃ t, l₁ ++ t = l₂ := by
  rw [List.isPrefixOf_iff_prefix]
  exact Iff.rfl

theorem containsSub_iff (hay needle : List Char) :
    containsSub hay needle = true ↔ ∃ pre post, hay = pre ++ needle ++ post := by
  induction hay with
  | nil =>
    simp only [containsSub, List.isEmpty_iff]
    constructor
    · rintro rfl; exact ⟨[], [], rfl⟩
    · rintro ⟨pre, post, h⟩
      rcases List.append_eq_nil.mp (List.append_eq_nil.mp h.symm).1 with ⟨-, h2⟩
      exact h2
  | cons c t ih =>
    simp only [containsSub, Bool.or_eq_true]
    constructor
    · rintro (h | h)
      · obtain ⟨post, hpost⟩ := isPrefixOf_iff.mp h
        exact ⟨[], post, by simp [hpost]⟩
      · obtain ⟨pre, post, h⟩ := ih.mp h
        exact ⟨c :: pre, post, by simp [h]⟩
    · rintro ⟨pre, post, h⟩
      cases pre with
      | nil =>
        left
        exact isPrefixOf_iff.mpr ⟨post, by simpa using h.symm⟩
      | cons d pre' =>
        right
        refine ih.mpr ⟨pre', post, ?_⟩
        simpa using (List.cons.injEq .. ▸ h :
          c = d ∧ t = pre' ++ needle ++ post).2

/-! ### Fallback classification of /test output (C8) -/

/-- C8 counterexample: the agent output `"2 passed"` is not a JSON array
(`parse_json` returns `None`), does **not** contain the substring
"all tests passed", yet `run_tests` classifies the attempt as all-passed —
because the fallback also accepts any output containing "pass" without
"fail".  This refutes the claim's "if and only if". -/
theorem test_fallback_counterexample :
    (runTestsModel true "2 passed".data none 1).all_passed = true ∧
    containsSub (pyLower "2 passed".data) "all tests passed".data = false := by
  decide

/-- C8 (amended): when the /test response's output cannot be used as a
suite-result array — `parse_json` failed, produced a non-list, or produced
an empty list — the attempt counts as all-passed iff the lowercased output
contains "all tests passed", **or** contains "pass" while not containing
"fail". -/
theorem test_fallback_characterization (output : List Char)
    (parsed : Option PyTestParse) (attempt : Nat)
    (hp : parsed = none ∨ (∃ t, parsed = some (.nonList t)) ∨
      parsed = some (.arr [])) :
    (runTestsModel true output parsed attempt).all_passed = true ↔
      (∃ pre post, pyLower output = pre ++ "all tests passed".data ++ post) ∨
      ((∃ pre post, pyLower output = pre ++ "pass".data ++ post) ∧
        ¬ ∃ pre post, pyLower output = pre ++ "fail".data ++ post) := by
  have hfb : (runTestsModel true output parsed attempt).all_passed =
      testFallbackPassed output := by
    rcases hp with rfl | ⟨t, rfl⟩ | rfl <;> simp [runTestsModel]
  rw [hfb]
  unfold testFallbackPassed
  simp only [Bool.or_eq_true, Bool.and_eq_true, Bool.not_eq_true',
    containsSub_iff]
  constructor
  · rintro (h | ⟨h1, h2⟩)
    · exact Or.inl h
    · refine Or.inr ⟨h1, fun hc => ?_⟩
      rw [(containsSub_iff _ _).mpr hc] at h2
      cases h2
  · rintro (h | ⟨h1, h2⟩)
    · exact Or.inl h
    · refine Or.inr ⟨h1, ?_⟩
      cases hc : containsSub (pyLower output) "fail".data
      · rfl
      · exact absurd ((containsSub_iff _ _).mp hc) h2

/-- C8 witness: the amended characterization applied to the concrete
non-JSON output "All tests passed!". -/
theorem test_fallback_characterization_witness :
    (runTestsModel true "All tests passed!".data none 1).all_passed = true := by
  refine (test_fallback_characterization "All tests passed!".data none 1
    (Or.inl rfl)).mpr (Or.inl ⟨[], "!".data, ?_⟩)
  decide

/-! ### Parsing defaults of /review output (C10) -/

/-- C10 counterexample: the agent output "blocker" followed by a fenced
empty JSON object parses (via `parse_json`'s fence-unwrapping, see
utils.py) to the JSON object `\x7b\x7d`, whose issues list is empty — yet
`run_review` reports `approved = False`: the empty dict is falsy, so the
guard `if parsed and isinstance(parsed, dict)` sends this output to the
textual fallback, which sees the word "blocker" without "approved".
This refutes the claim for responses parsing to an empty object. -/
theorem review_defaults_counterexample :
    (runReviewModel true "blocker\n```\n\x7b\x7d\n```".data
      (some (.dict {})) 1).approved = false ∧
    ((PyReviewDict.mk none none none none false).issues.getD []) = [] := by
  decide

/-- C10 (amended): when a /review response parses as a **non-empty** JSON
object, a missing "approved" key makes the review count as approved iff
the parsed issues list is empty, and an issue entry with a missing
"severity" key defaults to severity "suggestion", which is not the blocker
severity.  (A response parsing to the *empty* object is falsy in Python
and is classified by the textual fallback heuristic instead.) -/
theorem review_defaults (d : PyReviewDict) (output : List Char)
    (attempt : Nat) (ht : reviewDictTruthy d = true)
    (ha : d.approved = none) :
    ((runReviewModel true output (some (.dict d)) attempt).approved = true ↔
      d.issues.getD [] = []) ∧
    (runReviewModel true output (some (.dict d)) attempt).issues =
      (d.issues.getD []).map reviewItemToIssue ∧
    (∀ item : PyReviewItem, item.severity = none →
      (reviewItemToIssue item).severity = "suggestion".data ∧
      (reviewItemToIssue item).severity ≠ "blocker".data) := by
  refine ⟨?_, ?_, ?_⟩
  · simp [runReviewModel, ht, ha, List.isEmpty_iff]
  · simp [runReviewModel, ht]
  · intro item hsev
    simp [reviewItemToIssue, hsev]

/-- C10 witness: a non-empty parsed object with no "approved" key and one
issue whose "severity" key is missing: not approved, and the issue comes
out with severity "suggestion". -/
theorem review_defaults_witness :
    ((runReviewModel true "x".data
      (some (.dict { issues := some [{ file := some "a.py".data }] }))
      1).approved = true ↔
      ((some [({ file := some "a.py".data } : PyReviewItem)]).getD
        ([] : List PyReviewItem)) = []) ∧
    (reviewItemToIssue { file := some "a.py".data }).severity =
      "suggestion".data := by
  have h := review_defaults
    { issues := some [{ file := some "a.py".data }] } "x".data 1
    (by decide) rfl
  exact ⟨h.1, (h.2.2 _ rfl).1⟩

/-! ### Prompt saving vs. subprocess prompt (C7) -/

/-- C7 counterexample: for the slash-command prompt `/implement plan.md`
with an image path that exists on disk, `save_prompt` has already written
the bare request prompt when `prompt_claude_code` later appends the
reference-images directive to `cmd[2]`; the file content differs from the
prompt handed to the subprocess.  This refutes the claim's "including for
requests that carry existing image paths". -/
theorem prompt_saved_counterexample :
    savePromptFile "/repo".data "abc12345".data "ops".data
      "/implement plan.md".data =
      some ("/repo/agents/abc12345/ops/prompts/implement.txt".data,
        "/implement plan.md".data) ∧
    effectivePrompt "/implement plan.md".data ["img.png".data]
      (fun _ => true) id ≠ "/implement plan.md".data := by
  decide

/-- C7 (amended): for every request whose prompt begins with a slash
command `/word`, the runner writes the request prompt text to
`agents/<workflow-id>/<agent-name>/prompts/<word>.txt`; reading it back
yields exactly the prompt passed to the subprocess whenever no attached
image path exists on disk; when some do, the subprocess receives the saved
prompt followed by the reference-images directive. -/
theorem prompt_saved_roundtrip (projectRoot adw_id agent_name prompt :
      List Char) (imagePaths : List (List Char))
    (isFile : List Char → Bool) (abspath : List Char → List Char)
    (w : List Char) (hw : promptSlashWord prompt = some w) :
    savePromptFile projectRoot adw_id agent_name prompt =
      some (projectRoot ++ "/agents/".data ++ adw_id ++ "/".data
        ++ agent_name ++ "/prompts/".data ++ w ++ ".txt".data, prompt) ∧
    (imagePaths.filter isFile = [] →
      effectivePrompt prompt imagePaths isFile abspath = prompt) ∧
    (imagePaths.filter isFile ≠ [] →
      effectivePrompt prompt imagePaths isFile abspath =
        prompt ++ "\n\nReference images (use Read tool to view):\n".data
          ++ List.intercalate "\n".data
            ((imagePaths.filter isFile).map
              (fun p => "- ".data ++ abspath p))) := by
  refine ⟨by simp [savePromptFile, hw], ?_, ?_⟩
  · intro h
    by_cases himg : imagePaths = [] <;> simp [effectivePrompt, himg, h]
  · intro h
    have himg : imagePaths ≠ [] := by
      rintro rfl
      simp at h
    simp [effectivePrompt, himg, h]

/-- C7 witness: the amended roundtrip at a concrete slash-command request
with no images on disk — the saved file content and the subprocess prompt
agree. -/
theorem prompt_saved_roundtrip_witness :
    savePromptFile "/repo".data "abc12345".data "ops".data
      "/commit msg".data =
      some ("/repo/agents/abc12345/ops/prompts/commit.txt".data,
        "/commit msg".data) ∧
    effectivePrompt "/commit msg".data [] (fun _ => false) id =
      "/commit msg".data := by
  have h := prompt_saved_roundtrip "/repo".data "abc12345".data "ops".data
    "/commit msg".data [] (fun _ => false) id "commit".data (by decide)
  exact ⟨by simpa using h.1, h.2.1 rfl⟩

/-! ### Image URL extraction (C5) -/

theorem dedupFirstAux_sublist (l : List (List Char)) :
    ∀ seen, List.Sublist (dedupFirstAux seen l) l := by
  induction l with
  | nil => intro seen; simp [dedupFirstAux]
  | cons u us ih =>
    intro seen
    unfold dedupFirstAux
    by_cases hm : u ∈ seen
    · simp only [hm, if_true]
      exact (ih seen).cons u
    · simp only [hm, if_false]
      exact (ih (u :: seen)).cons₂ u

theorem mem_dedupFirstAux (l : List (List Char)) (x : List Char) :
    ∀ seen, x ∈ dedupFirstAux seen l ↔ x ∈ l ∧ x ∉ seen := by
  induction l with
  | nil => intro seen; simp [dedupFirstAux]
  | cons u us ih =>
    intro seen
    unfold dedupFirstAux
    by_cases hm : u ∈ seen
    · simp only [hm, if_true, ih seen, List.mem_cons]
      constructor
      · rintro ⟨hx, hns⟩; exact ⟨Or.inr hx, hns⟩
      · rintro ⟨hx | hx, hns⟩
        · exact absurd (hx ▸ hm) hns
        · exact ⟨hx, hns⟩
    · simp only [hm, if_false, List.mem_cons, ih (u :: seen)]
      constructor
      · rintro (rfl | ⟨hx, hns⟩)
        · exact ⟨Or.inl rfl, hm⟩
        · exact ⟨Or.inr hx, fun h => hns (Or.inr h)⟩
      · rintro ⟨rfl | hx, hns⟩
        · exact Or.inl rfl
        · by_cases hxu : x = u
          · exact Or.inl hxu
          · exact Or.inr ⟨hx, by simp [hxu, hns]⟩

theorem dedupFirstAux_nodup (l : List (List Char)) :
    ∀ seen, (dedupFirstAux seen l).Nodup := by
  induction l with
  | nil => intro seen; simp [dedupFirstAux]
  | cons u us ih =>
    intro seen
    unfold dedupFirstAux
    by_cases hm : u ∈ seen
    · simpa [hm] using ih seen
    · simp only [hm, if_false, List.nodup_cons]
      exact ⟨fun h => ((mem_dedupFirstAux us u (u :: seen)).mp h).2
        (List.mem_cons_self u seen), ih (u :: seen)⟩

/-- C5 counterexample: in the body
`![a](https://m.png) <img src="https://h.png">` the Markdown URL appears
first (index 5, before the HTML URL at index 30), yet extraction returns
the HTML match first — the source concatenates *all* HTML matches before
*all* Markdown matches, so the result is not in first-seen order of
appearance in the body. -/
theorem extract_order_counterexample :
    extractImageUrls
      "![a](https://m.png) <img src=\"https://h.png\">".data =
      ["https://h.png".data, "https://m.png".data] ∧
    firstIdxOf "![a](https://m.png) <img src=\"https://h.png\">".data
      "https://m.png".data = some 5 ∧
    firstIdxOf "![a](https://m.png) <img src=\"https://h.png\">".data
      "https://h.png".data = some 30 ∧
    (5 : Nat) < 30 := by
  decide

/-- C5 (amended): image-URL extraction returns the URLs captured by the
HTML `img` scan followed by those of the Markdown scan — all HTML matches
before all Markdown matches, not global body order — with duplicates
removed keeping first occurrences: the result has no duplicates, is a
sublist of (hence ordered like) the concatenated scan results, and
contains exactly the URLs some scan found; in particular a body containing
the same URL once as an HTML img tag and once as a Markdown image yields
exactly one URL. -/
theorem extract_image_urls_spec (body : List Char) :
    (extractImageUrls body).Nodup ∧
    List.Sublist (extractImageUrls body) (findImgUrls body ++ findMdUrls body) ∧
    (∀ u, u ∈ extractImageUrls body ↔
      u ∈ findImgUrls body ++ findMdUrls body) ∧
    extractImageUrls
      "<img src=\"https://x/y.png\"> and ![alt](https://x/y.png)".data =
      ["https://x/y.png".data] := by
  refine ⟨dedupFirstAux_nodup _ [], dedupFirstAux_sublist _ [], ?_, by decide⟩
  intro u
  rw [extractImageUrls, mem_dedupFirstAux]
  simp

/-! ### Test phase retry loop (C1) -/

/-- C1: for every workflow whose state file exists, the test phase runs at
most 4 attempts (at most 4 test-attempt records are appended); if some of
the (up to 4) attempts reports all suites passed, the phase advances the
current phase to REVIEW and exits successfully (exit code 0); if all 4
attempts report a failure, the state's error is set to exactly
"Tests failed after 4 attempts" and the process exits non-zero (code 1). -/
theorem test_phase_retry (f : Nat → E2ETestResult) (fs : Option ADWState)
    (st : ADWState) (hfs : fs = some st) :
    ∃ r, adwTestMain f fs = some r ∧
      r.state.test_results.length ≤ st.test_results.length + 4 ∧
      ((∃ i, 1 ≤ i ∧ i ≤ 4 ∧ (f i).all_passed = true) →
        r.state.current_phase = ADWPhase.review ∧ r.exitCode = 0) ∧
      ((∀ i, 1 ≤ i → i ≤ 4 → (f i).all_passed = false) →
        r.state.error = some "Tests failed after 4 attempts".data ∧
        r.exitCode = 1) := by
  subst hfs
  have hnat : natChars 4 = "4".data := by decide
  refine ⟨_, rfl, ?_, ?_, ?_⟩
  · cases h1 : (f 1).all_passed <;> cases h2 : (f 2).all_passed <;>
      cases h3 : (f 3).all_passed <;> cases h4 : (f 4).all_passed <;>
      simp_all [adwTestMain, testLoopGo, testExhausted,
        MAX_TEST_RETRY_ATTEMPTS, advance_phase, mark_error]
  · rintro ⟨i, hi1, hi4, hp⟩
    interval_cases i <;>
      cases h1 : (f 1).all_passed <;> cases h2 : (f 2).all_passed <;>
      cases h3 : (f 3).all_passed <;> cases h4 : (f 4).all_passed <;>
      simp_all [adwTestMain, testLoopGo, testExhausted,
        MAX_TEST_RETRY_ATTEMPTS, advance_phase, mark_error]
  · intro hall
    have h1 := hall 1 (by omega) (by omega)
    have h2 := hall 2 (by omega) (by omega)
    have h3 := hall 3 (by omega) (by omega)
    have h4 := hall 4 (by omega) (by omega)
    simp_all [adwTestMain, testLoopGo, testExhausted,
      MAX_TEST_RETRY_ATTEMPTS, advance_phase, mark_error, hnat]

/-- C1 witness: with attempts 1-2 failing and attempt 3 passing, the phase
ends in REVIEW with exit code 0 and at most 4 recorded attempts. -/
theorem test_phase_retry_witness :
    ∃ r, adwTestMain
      (fun i => { all_passed := i = 3, results := [] })
      (some (create_state "adw12345".data "7".data)) = some r ∧
      r.state.test_results.length ≤
        (create_state "adw12345".data "7".data).test_results.length + 4 ∧
      (r.state.current_phase = ADWPhase.review ∧ r.exitCode = 0) := by
  obtain ⟨r, hr, hlen, hpass, -⟩ := test_phase_retry
    (fun i => { all_passed := i = 3, results := [] })
    (some (create_state "adw12345".data "7".data))
    (create_state "adw12345".data "7".data) rfl
  exact ⟨r, hr, hlen, hpass ⟨3, by omega, by omega, by simp⟩⟩

/-! ### Review phase retry loop (C2) -/

theorem postReview_fst (upload : List (List Char) → List (List Char))
    (issue comment : List Char) (shots : List (List Char)) :
    (postReviewCommentWithScreenshots upload issue comment shots).1 =
      issue := by
  unfold postReviewCommentWithScreenshots
  by_cases hu : upload shots = [] <;> simp [hu]

theorem postReview_snd_prefix (upload : List (List Char) → List (List Char))
    (issue comment : List Char) (shots : List (List Char)) :
    comment <+: (postReviewCommentWithScreenshots upload issue comment
      shots).2 := by
  unfold postReviewCommentWithScreenshots
  by_cases hu : upload shots = [] <;> simp [hu]

theorem reviewExhausted_spec (upload : List (List Char) → List (List Char))
    (adw issue : List Char) (st : ADWState)
    (acc : List (List Char × List Char)) :
    (reviewExhausted upload adw issue st acc).state.error =
      some "Review blockers after 3 attempts".data ∧
    (reviewExhausted upload adw issue st acc).exitCode = 1 ∧
    ∃ b, (issue, b) ∈ (reviewExhausted upload adw issue st acc).comments ∧
      format_issue_message adw AGENT_REVIEWER
        "❌ Review blockers not resolved after 3 attempts".data <+: b := by
  have hmsg : ("Review blockers after ".data
      ++ natChars MAX_REVIEW_RETRY_ATTEMPTS ++ " attempts".data) =
      "Review blockers after 3 attempts".data := by decide
  have hfail : ("❌ Review blockers not resolved after ".data
      ++ natChars MAX_REVIEW_RETRY_ATTEMPTS ++ " attempts".data) =
      "❌ Review blockers not resolved after 3 attempts".data := by decide
  unfold reviewExhausted
  rw [hmsg, hfail]
  refine ⟨rfl, rfl, ?_⟩
  simp only [mark_error]
  cases hl : st.review_results.getLast? with
  | none =>
    exact ⟨_, by simp [hl], List.prefix_rfl⟩
  | some last =>
    by_cases hs : last.screenshots = []
    · exact ⟨_, by simp [hl, hs], List.prefix_rfl⟩
    · refine ⟨(postReviewCommentWithScreenshots upload issue
        (format_issue_message adw AGENT_REVIEWER
          "❌ Review blockers not resolved after 3 attempts".data)
        last.screenshots).2, ?_, postReview_snd_prefix _ _ _ _⟩
      have hpair : (issue, (postReviewCommentWithScreenshots upload issue
          (format_issue_message adw AGENT_REVIEWER
            "❌ Review blockers not resolved after 3 attempts".data)
          last.screenshots).2) =
          postReviewCommentWithScreenshots upload issue
            (format_issue_message adw AGENT_REVIEWER
              "❌ Review blockers not resolved after 3 attempts".data)
            last.screenshots :=
        Prod.ext (postReview_fst upload issue _ last.screenshots).symm rfl
      rw [hpair]
      simp [hl, hs]

/-- C2: for every workflow whose state has a (non-empty) plan file, the
review phase runs at most 3 attempts; if every attempt is unapproved, the
state's error is set to exactly "Review blockers after 3 attempts", a
failure comment (prefixed with the reviewer's formatted failure message)
is posted on the issue, and the process exits with code 1; if some attempt
is approved, the phase advances the current phase to DOCUMENT and exits
successfully. -/
theorem review_phase_retry (g : Nat → ReviewResult)
    (e2e : List (List Char))
    (merge upload : List (List Char) → List (List Char))
    (fs : Option ADWState) (st : ADWState) (p : List Char)
    (hfs : fs = some st) (hplan : st.plan_file = some p) (hp : p ≠ []) :
    ∃ r, adwReviewMain g e2e merge upload fs = some r ∧
      r.state.review_results.length ≤ st.review_results.length + 3 ∧
      ((∀ i, 1 ≤ i → i ≤ 3 → (g i).approved = false) →
        r.state.error = some "Review blockers after 3 attempts".data ∧
        r.exitCode = 1 ∧
        ∃ b, (st.issue_number, b) ∈ r.comments ∧
          (format_issue_message st.adw_id AGENT_REVIEWER
            "❌ Review blockers not resolved after 3 attempts".data) <+: b) ∧
      ((∃ i, 1 ≤ i ∧ i ≤ 3 ∧ (g i).approved = true) →
        r.state.current_phase = ADWPhase.document ∧ r.exitCode = 0) := by
  subst hfs
  have happ : ∀ i, (mergeE2EScreenshots merge e2e (g i)).approved =
      (g i).approved := by
    intro i
    unfold mergeE2EScreenshots
    by_cases he : e2e = [] <;> simp [he]
  refine ⟨reviewLoopGo g e2e merge upload st.adw_id st.issue_number 1
    MAX_REVIEW_RETRY_ATTEMPTS st [(st.issue_number,
      format_issue_message st.adw_id "ops".data
        "✅ Starting review phase".data)], ?_, ?_, ?_, ?_⟩
  · simp [adwReviewMain, hplan, hp]
  · cases h1 : (g 1).approved <;> cases h2 : (g 2).approved <;>
      cases h3 : (g 3).approved <;>
      simp_all [reviewLoopGo, reviewExhausted,
        MAX_REVIEW_RETRY_ATTEMPTS, mark_error, advance_phase, happ]
  · intro hall
    have h1 := hall 1 (by omega) (by omega)
    have h2 := hall 2 (by omega) (by omega)
    have h3 := hall 3 (by omega) (by omega)
    simp only [reviewLoopGo, MAX_REVIEW_RETRY_ATTEMPTS, happ, h1, h2, h3,
      Bool.false_eq_true, if_false, Nat.reduceLeDiff, ite_false, ite_true,
      if_true]
    exact reviewExhausted_spec upload _ _ _ _
  · rintro ⟨i, hi1, hi3, hpass⟩
    interval_cases i <;>
      cases h1 : (g 1).approved <;> cases h2 : (g 2).approved <;>
      cases h3 : (g 3).approved <;>
      simp_all [reviewLoopGo, reviewExhausted,
        MAX_REVIEW_RETRY_ATTEMPTS, mark_error, advance_phase, happ]

/-- C2 witness: with all three review attempts unapproved, the phase exits
with code 1, records the exact error string, and posts a failure comment
carrying the reviewer's failure prefix. -/
theorem review_phase_retry_witness :
    ∃ r, adwReviewMain
      (fun i => { approved := false, summary := [], attempt := i })
      [] id id
      (some { create_state "adw12345".data "7".data with
        plan_file := some "specs/plan.md".data }) = some r ∧
      r.state.error = some "Review blockers after 3 attempts".data ∧
      r.exitCode = 1 := by
  obtain ⟨r, hr, -, hfail, -⟩ := review_phase_retry
    (fun i => { approved := false, summary := [], attempt := i })
    [] id id
    (some { create_state "adw12345".data "7".data with
      plan_file := some "specs/plan.md".data })
    { create_state "adw12345".data "7".data with
      plan_file := some "specs/plan.md".data }
    "specs/plan.md".data rfl rfl (by decide)
  obtain ⟨herr, hexit, -⟩ := hfail (fun i _ _ => rfl)
  exact ⟨r, hr, herr, hexit⟩

/-! ### Agent response distillation (C3) -/

theorem reverse_find?_eq_getLast?_filter {α} (p : α → Bool) (l : List α) :
    l.reverse.find? p = (l.filter p).getLast? := by
  rw [List.getLast?_eq_head?_reverse, ← List.filter_reverse,
    List.filter_head?]

theorem resultMsgs_eq (lines : List RawLine) :
    ((lines.filter (fun l => match l with
        | .blank => false | _ => true)).filterMap
      (fun l => match l with | .msg m => some m | _ => none)).filter
        (fun m => m.mtype == "result".data) =
    lines.filterMap (fun l => match l with
      | .msg m => if m.mtype == "result".data then some m else none
      | _ => none) := by
  induction lines with
  | nil => rfl
  | cons a t ih =>
    cases a with
    | blank => simpa using ih
    | bad => simpa using ih
    | msg m =>
      by_cases hp : m.mtype = "result".data <;>
        simp [List.filter_cons, List.filterMap_cons, hp, ih]

theorem parseJsonl_snd_of_wf (lines : List RawLine)
    (hwf : ∀ l ∈ lines, l ≠ RawLine.bad) :
    (parseJsonlOutput lines).2 = lastResultMsg lines := by
  have hno : (lines.filter (fun l => match l with
      | .blank => false | _ => true)).any
      (fun l => match l with | .bad => true | _ => false) = false := by
    rw [List.any_eq_false]
    intro x hx
    have hxl := List.mem_of_mem_filter hx
    have := hwf x hxl
    cases x <;> simp_all
  unfold parseJsonlOutput
  simp only [hno, Bool.false_eq_true, if_false]
  rw [reverse_find?_eq_getLast?_filter, resultMsgs_eq]
  rfl

theorem parseJsonl_snd_none (lines : List RawLine)
    (hnone : lastResultMsg lines = none) :
    (parseJsonlOutput lines).2 = none := by
  unfold parseJsonlOutput
  cases hbad : (lines.filter (fun l => match l with
      | .blank => false | _ => true)).any
      (fun l => match l with | .bad => true | _ => false)
  · simp only [hbad, Bool.false_eq_true, if_false]
    rw [reverse_find?_eq_getLast?_filter, resultMsgs_eq]
    exact hnone
  · simp only [hbad, if_true]

/-- C3: for every agent subprocess run, (a) a non-zero exit yields a
failure response whose text is derived from stderr; (b) on exit zero, when
every captured line parses (the agent's JSONL protocol) and a line of type
"result" exists, the last such line determines the response — success is
the negation of its `is_error`, the text is its `result` field, the
session id its `session_id`; (c) on exit zero with no "result" line the
response is success with the raw concatenated output. -/
theorem agent_response_distillation (o : SpawnOutcome) :
    (o.exitCode ≠ 0 → promptClaudeCodeResponse o =
      { output := "Claude Code error: ".data ++ o.stderr
        success := false, session_id := none }) ∧
    (o.exitCode = 0 → (∀ l ∈ o.lines, l ≠ RawLine.bad) →
      ∀ m, lastResultMsg o.lines = some m →
        promptClaudeCodeResponse o =
          { output := m.result.getD []
            success := !(m.is_error.getD false)
            session_id := m.session_id }) ∧
    (o.exitCode = 0 → lastResultMsg o.lines = none →
      promptClaudeCodeResponse o =
        { output := o.rawContent, success := true, session_id := none }) := by
  refine ⟨fun h => by simp [promptClaudeCodeResponse, h], ?_, ?_⟩
  · intro h0 hwf m hm
    unfold promptClaudeCodeResponse
    rw [if_pos h0, parseJsonl_snd_of_wf o.lines hwf, hm]
  · intro h0 hnone
    unfold promptClaudeCodeResponse
    rw [if_pos h0, parseJsonl_snd_none o.lines hnone]

/-- C3 witness: a zero-exit run whose output holds a system line and a
final result line with `is_error = false`; the distilled response carries
the result text and session id with success true. -/
theorem agent_response_distillation_witness :
    promptClaudeCodeResponse
      { exitCode := 0
        lines := [.msg { mtype := "system".data },
          .msg { mtype := "result".data, session_id := some "s1".data, is_error := some false, result := some "done".data }]
        rawContent := "raw".data
        stderr := [] } =
      { output := "done".data, success := true,
        session_id := some "s1".data } := by
  obtain ⟨-, h2, -⟩ := agent_response_distillation
    { exitCode := 0
      lines := [.msg { mtype := "system".data },
        .msg { mtype := "result".data, session_id := some "s1".data, is_error := some false, result := some "done".data }]
      rawContent := "raw".data
      stderr := [] }
  exact h2 rfl (by decide) _ rfl

/-! ### Keyword router (C4) -/

theorem find?_congrP {α} (p q : α → Bool) :
    ∀ l : List α, (∀ x ∈ l, p x = q x) → l.find? p = l.find? q := by
  intro l
  induction l with
  | nil => intro _; rfl
  | cons a t ih =>
    intro h
    have ha := h a (List.mem_cons_self a t)
    cases hq : q a <;>
      simp [List.find?, ha, hq,
        ih (fun x hx => h x (List.mem_cons_of_mem a hx))]

theorem find?_longest_match {α} (p : α → Bool) (f : α → Nat) :
    ∀ L : List α, L.Pairwise (fun a b => f b ≤ f a) →
      ∀ x ∈ L, p x = true → ∃ y, L.find? p = some y ∧ f x ≤ f y := by
  intro L
  induction L with
  | nil => intro _ x hx; exact absurd hx (List.not_mem_nil x)
  | cons a t ih =>
    intro hp x hx hpx
    rcases List.pairwise_cons.mp hp with ⟨ha, ht⟩
    cases hpa : p a
    · have hxt : x ∈ t := by
        rcases List.mem_cons.mp hx with rfl | h
        · rw [hpa] at hpx; cases hpx
        · exact h
      obtain ⟨y, hy, hfy⟩ := ih ht x hxt hpx
      exact ⟨y, by simp [List.find?, hpa, hy], hfy⟩
    · refine ⟨a, by simp [List.find?, hpa], ?_⟩
      rcases List.mem_cons.mp hx with rfl | h
      · exact le_refl _
      · exact ha x h

theorem sortedKeywords_eq :
    sortedKeywords =
      ["adw_plan_build_test_review".data, "adw_plan_build_review".data,
       "adw_plan_build_test".data, "adw_plan_build".data, "adw_patch".data,
       "adw_sdlc".data, "adw".data] := by decide

theorem sortedKeywords_sorted :
    sortedKeywords.Pairwise (fun a b => b.length ≤ a.length) := by
  rw [sortedKeywords_eq]; decide

theorem mem_sortedKeywords (kw : List Char) :
    kw ∈ sortedKeywords ↔ kw ∈ WORKFLOW_SCRIPTS.map Prod.fst :=
  (List.perm_insertionSort _ _).mem_iff

theorem goodKeywords :
    ∀ kw ∈ sortedKeywords, kw ≠ [] ∧ ∀ c ∈ kw, isPySpace c = false := by
  rw [sortedKeywords_eq]; decide

theorem prefix_takeWhile_of_forall {kw s : List Char} {P : Char → Bool}
    (hall : ∀ c ∈ kw, P c = true) (h : kw <+: s) :
    kw <+: s.takeWhile P := by
  induction kw generalizing s with
  | nil => exact List.nil_prefix
  | cons c kw ih =>
    obtain ⟨t, ht⟩ := h
    subst ht
    rw [List.cons_append, List.takeWhile_cons,
      hall c (List.mem_cons_self c kw), if_pos rfl]
    exact List.cons_prefix_cons.mpr ⟨rfl,
      ih (fun d hd => hall d (List.mem_cons_of_mem c hd))
        (List.prefix_append kw t)⟩

theorem prefix_takeWhile_iff (kw s : List Char) (P : Char → Bool)
    (hall : ∀ c ∈ kw, P c = true) :
    kw <+: s.takeWhile P ↔ kw <+: s :=
  ⟨fun h => h.trans (List.takeWhile_prefix P),
    prefix_takeWhile_of_forall hall⟩

theorem splitLinesPy_cons (s : List Char) :
    s ≠ [] → ∃ rest, splitLinesPy s = s.takeWhile (· ≠ '\n') :: rest := by
  induction s with
  | nil => intro h; exact absurd rfl h
  | cons c cs ih =>
    intro _
    by_cases hc : c = '\n'
    · subst hc
      exact ⟨splitLinesPy cs, by simp [splitLinesPy]⟩
    · cases hcs : cs with
      | nil => exact ⟨[], by simp [splitLinesPy, hc]⟩
      | cons d ds =>
        obtain ⟨rest, hrest⟩ := hcs ▸ ih (by simp [hcs])
        refine ⟨rest, ?_⟩
        rw [show splitLinesPy (c :: d :: ds) =
            (if c = '\n' then [] :: splitLinesPy (d :: ds)
             else match splitLinesPy (d :: ds) with
              | [] => [[c]]
              | line :: rest => (c :: line) :: rest) from rfl]
        rw [if_neg hc, hrest]
        simp [List.takeWhile_cons, hc]

theorem prefix_pyStrip_iff (kw l : List Char)
    (hkw_ws : ∀ c ∈ kw, isPySpace c = false)
    (hl : ∀ c, l.head? = some c → isPySpace c = false) :
    kw <+: pyStrip l ↔ kw <+: l := by
  have hdrop : l.dropWhile isPySpace = l := by
    cases l with
    | nil => rfl
    | cons c t =>
      rw [List.dropWhile_cons, hl c rfl]
      simp
  constructor
  · intro h
    have hstrip : pyStrip l <+: l := by
      unfold pyStrip
      rw [hdrop]
      have hsfx : l.reverse.dropWhile isPySpace <:+ l.reverse :=
        List.dropWhile_suffix _
      have h2 := List.reverse_prefix.mpr hsfx
      rwa [List.reverse_reverse] at h2
    exact h.trans hstrip
  · intro h
    unfold pyStrip
    rw [hdrop]
    obtain ⟨r, hr⟩ := h
    subst hr
    rw [List.reverse_append, List.dropWhile_append]
    have hkwrev : kw.reverse.dropWhile isPySpace = kw.reverse := by
      cases hkr : kw.reverse with
      | nil => rfl
      | cons c t =>
        have hc : c ∈ kw := List.mem_reverse.mp
          (hkr ▸ List.mem_cons_self c t)
        rw [List.dropWhile_cons, hkw_ws c hc]
        simp
    by_cases hre : (r.reverse.dropWhile isPySpace).isEmpty
    · rw [if_pos hre, hkwrev, List.reverse_reverse]
    · rw [if_neg hre, List.reverse_append, List.reverse_reverse]
      exact List.prefix_append _ _

theorem isPrefixOf_congr {u v x : List Char}
    (h : (x <+: u) ↔ (x <+: v)) : x.isPrefixOf u = x.isPrefixOf v := by
  rcases hx1 : x.isPrefixOf u <;> rcases hx2 : x.isPrefixOf v
  · rfl
  · exact absurd (List.isPrefixOf_iff_prefix.mpr
      (h.mpr (List.isPrefixOf_iff_prefix.mp hx2))) (by simp [hx1])
  · exact absurd (List.isPrefixOf_iff_prefix.mpr
      (h.mp (List.isPrefixOf_iff_prefix.mp hx1))) (by simp [hx2])
  · rfl

theorem resolveCronNorm_eq (s : List Char) :
    resolveCronNorm s =
      (sortedKeywords.find? (fun kw => kw.isPrefixOf s)).map lookupScript := by
  unfold resolveCronNorm
  congr 1
  apply find?_congrP
  intro kw _
  cases hpre : kw.isPrefixOf s
  · simp only [hpre, Bool.or_false]
    rw [beq_eq_false_iff_ne]
    rintro rfl
    exact absurd hpre (by simp [List.isPrefixOf_iff_prefix])
  · simp [hpre]

theorem resolveWebhookNorm_eq (s k kw : List Char)
    (hk : k ∈ sortedKeywords) (hpre : k <+: s)
    (hfind : sortedKeywords.find? (fun kw' => kw'.isPrefixOf s) = some kw) :
    resolveWebhookNorm s = lookupScript kw := by
  have hkgood := goodKeywords k hk
  obtain ⟨t, hts⟩ := hpre
  obtain ⟨a, k', hak⟩ : ∃ a k', k = a :: k' := by
    cases hk0 : k with
    | nil => exact absurd hk0 hkgood.1
    | cons a k' => exact ⟨a, k', rfl⟩
  have hsne : s ≠ [] := by
    rw [← hts, hak]
    simp
  have hhead : s.head? = some a := by
    rw [← hts, hak]
    rfl
  have hanw : isPySpace a = false :=
    hkgood.2 a (hak ▸ List.mem_cons_self a k')
  unfold resolveWebhookNorm
  cases hex : sortedKeywords.find? (fun kw' => s == kw') with
  | some kx =>
    have hsx : s = kx := by
      have := List.find?_some hex
      exact eq_of_beq this
    have hkxmem : kx ∈ sortedKeywords := List.mem_of_find?_eq_some hex
    have hkxpre : kx.isPrefixOf s = true := by
      rw [hsx]
      simp [List.isPrefixOf_iff_prefix]
    obtain ⟨y, hy, hfy⟩ := find?_longest_match
      (fun kw' => kw'.isPrefixOf s) List.length sortedKeywords
      sortedKeywords_sorted kx hkxmem hkxpre
    rw [hfind] at hy
    injection hy with hy
    subst hy
    have hkwb := List.find?_some hfind
    have hkwpre : kw <+: s := List.isPrefixOf_iff_prefix.mp hkwb
    have hkws : kw = s := List.IsPrefix.eq_of_length hkwpre
      (le_antisymm hkwpre.length_le (by rw [hsx]; exact hfy))
    rw [hkws, hsx]
  | none =>
    obtain ⟨rest, hsplit⟩ := splitLinesPy_cons s hsne
    rw [hsplit]
    have hline1head : ∀ c, (s.takeWhile (· ≠ '\n')).head? = some c →
        isPySpace c = false := by
      intro c hc
      have hanl : a ≠ '\n' := by
        intro h
        rw [h] at hanw
        exact absurd hanw (by decide)
      rw [← hts, hak, List.cons_append, List.takeWhile_cons] at hc
      simp only [hanl, decide_not] at hc
      rw [if_pos (by simp [hanl])] at hc
      simp only [List.head?_cons, Option.some.injEq] at hc
      rw [← hc]
      exact hanw
    have hcong : sortedKeywords.find?
        (fun kw' => kw'.isPrefixOf (pyStrip (s.takeWhile (· ≠ '\n')))) =
        sortedKeywords.find? (fun kw' => kw'.isPrefixOf s) := by
      apply find?_congrP
      intro x hx
      have hxgood := goodKeywords x hx
      apply isPrefixOf_congr
      rw [prefix_pyStrip_iff x _ hxgood.2 hline1head]
      exact prefix_takeWhile_iff x s _ (fun c hc => by
        have hcnw := hxgood.2 c hc
        have : c ≠ '\n' := by
          intro h
          rw [h] at hcnw
          exact absurd hcnw (by decide)
        simp [this])
    rw [List.findSome?_cons]
    rw [hcong, hfind]
    rfl

/-- C4 counterexample: the claim as stated fails on the routing table
itself.  The keywords `adw` and `adw_plan_build` map to the *same* script
`adw_plan_build.py`, so for the body "adw_plan_build" the poller's router
returns exactly the script mapped to the proper prefix `adw`, violating
"never the one mapped to k1".  (Independently, for the body
"adw_plan_build_test_review", which begins with the keyword
`adw_plan_build_test`, both routers return the longer keyword's script
rather than k2's.) -/
theorem router_prefix_stability_counterexample :
    ¬ routerPrefixStableClaim := by
  intro h
  have h1 := h "adw".data "adw_plan_build".data "adw_plan_build".data
    (by decide) (by decide) (by decide) (by decide) (by decide)
  exact h1.2.1 (by decide)

/-- C4 (amended): for any two distinct table keywords with k1 a proper
prefix of k2 and any body whose normalization begins with k2, both routers
return the script of one and the same matching keyword `kw` — the longest
keyword prefixing the body — which is at least as long as k2 and in
particular never k1; when no strictly longer keyword also prefixes the
body, `kw` is k2 itself (so the routers return k2's script). -/
theorem router_prefix_stability (k1 k2 body : List Char)
    (h1 : k1 ∈ WORKFLOW_SCRIPTS.map Prod.fst)
    (h2 : k2 ∈ WORKFLOW_SCRIPTS.map Prod.fst)
    (hne : k1 ≠ k2) (h12 : k1 <+: k2)
    (hpre : k2 <+: pyLower (pyStrip body)) :
    ∃ kw, kw ∈ WORKFLOW_SCRIPTS.map Prod.fst ∧
      kw <+: pyLower (pyStrip body) ∧
      k2.length ≤ kw.length ∧ kw ≠ k1 ∧
      resolveWorkflowCron body = some (lookupScript kw) ∧
      resolveWorkflowWebhook body = lookupScript kw ∧
      ((∀ kw', kw' ∈ WORKFLOW_SCRIPTS.map Prod.fst →
          kw' <+: pyLower (pyStrip body) → kw'.length ≤ k2.length) →
        kw = k2) := by
  have hk2s : k2 ∈ sortedKeywords := (mem_sortedKeywords k2).mpr h2
  have hk2pre : k2.isPrefixOf (pyLower (pyStrip body)) = true :=
    List.isPrefixOf_iff_prefix.mpr hpre
  obtain ⟨kw, hfind, hlen⟩ := find?_longest_match
    (fun kw' => kw'.isPrefixOf (pyLower (pyStrip body))) List.length
    sortedKeywords sortedKeywords_sorted k2 hk2s hk2pre
  have hkwmem : kw ∈ sortedKeywords := List.mem_of_find?_eq_some hfind
  have hkwb := List.find?_some hfind
  have hkwpre : kw <+: pyLower (pyStrip body) :=
    List.isPrefixOf_iff_prefix.mp hkwb
  have hk1len : k1.length < k2.length := by
    rcases lt_or_eq_of_le h12.length_le with h | h
    · exact h
    · exact absurd (List.IsPrefix.eq_of_length h12 h) hne
  refine ⟨kw, (mem_sortedKeywords kw).mp hkwmem, hkwpre, hlen, ?_, ?_, ?_, ?_⟩
  · rintro rfl
    omega
  · unfold resolveWorkflowCron
    rw [resolveCronNorm_eq, hfind]
    rfl
  · exact resolveWebhookNorm_eq (pyLower (pyStrip body)) k2 kw hk2s hpre hfind
  · intro hmax
    have hle := hmax kw ((mem_sortedKeywords kw).mp hkwmem) hkwpre
    have hlen2 : kw.length = k2.length := le_antisymm hle hlen
    rw [List.prefix_iff_eq_take.mp hkwpre, List.prefix_iff_eq_take.mp hpre,
      hlen2]

/-- C4 witness: the amended stability statement at k1 = `adw`,
k2 = `adw_sdlc` and the body "adw_sdlc please": the winning keyword is
`adw_sdlc` and both routers return its script. -/
theorem router_prefix_stability_witness :
    ∃ kw, kw ∈ WORKFLOW_SCRIPTS.map Prod.fst ∧
      kw <+: pyLower (pyStrip "adw_sdlc please".data) ∧
      ("adw_sdlc".data : List Char).length ≤ kw.length ∧
      kw ≠ "adw".data ∧
      resolveWorkflowCron "adw_sdlc please".data =
        some (lookupScript kw) ∧
      resolveWorkflowWebhook "adw_sdlc please".data = lookupScript kw ∧
      ((∀ kw', kw' ∈ WORKFLOW_SCRIPTS.map Prod.fst →
          kw' <+: pyLower (pyStrip "adw_sdlc please".data) →
          kw'.length ≤ ("adw_sdlc".data : List Char).length) →
        kw = "adw_sdlc".data) :=
  router_prefix_stability "adw".data "adw_sdlc".data "adw_sdlc please".data
    (by decide) (by decide) (by decide) (by decide) (by decide)

end ADW
